import Mathlib

/-!
Formal model of the Frutia QC application (`app.py`): the `Crate` record
model, the two insert paths (form `POST /add` and JSON `POST /api/crates`),
the dashboard list/filter operation, fetch-by-id, the CSV export and the
JSON list endpoint.  Machine floats are idealised as exact rationals; the
process clock is passed explicitly as an argument.
-/
/-- Calendar date (year, month, day), as Python `datetime.date`. -/
structure Date where
  year : Nat
  month : Nat
  day : Nat
deriving DecidableEq, Repr

/-- UTC timestamp at whole-second precision, as Python `datetime.datetime`
(sub-second precision is never observable in the modelled code paths). -/
structure DateTime where
  date : Date
  hour : Nat
  minute : Nat
  second : Nat
deriving DecidableEq, Repr

/-- Read up to `k` leading ASCII digits (greedily), returning their value,
how many digits were consumed, and the rest of the input. -/
def readDigits : Nat → List Char → Nat → Nat → Nat × Nat × List Char
  | 0, s, acc, n => (acc, n, s)
  | _ + 1, [], acc, n => (acc, n, [])
  | k + 1, c :: s, acc, n =>
    if c.isDigit then readDigits k s (acc * 10 + (c.toNat - 48)) (n + 1)
    else (acc, n, c :: s)

/-- Read all leading ASCII digits, returning value, digit count, rest. -/
def readNat : List Char → Nat → Nat → Nat × Nat × List Char
  | [], acc, n => (acc, n, [])
  | c :: s, acc, n =>
    if c.isDigit then readNat s (acc * 10 + (c.toNat - 48)) (n + 1)
    else (acc, n, c :: s)

/-- Length of a month, with the Gregorian leap rule for February. -/
def daysInMonth (y m : Nat) : Nat :=
  if m = 2 then (if y % 4 = 0 ∧ (y % 100 ≠ 0 ∨ y % 400 = 0) then 29 else 28)
  else if m = 4 ∨ m = 6 ∨ m = 9 ∨ m = 11 then 30 else 31

/-- Embedding of `datetime.strptime(s, "%Y-%m-%d").date()`: `%Y` matches
exactly four digits (the CPython `_strptime` pattern is `\d\d\d\d`), then a
hyphen, a 1–2 digit month, a hyphen, a 1–2 digit day, with the whole input
consumed, validated as a real calendar date (year at least 1, as
`datetime.MINYEAR = 1`).  Only ASCII digits are modelled. -/
def parseDate (s : String) : Option Date :=
  let (y, ny, r1) := readDigits 4 s.data 0 0
  if ny ≠ 4 then none else
  match r1 with
  | '-' :: r2 =>
    let (m, nm, r3) := readDigits 2 r2 0 0
    if nm = 0 then none else
    match r3 with
    | '-' :: r4 =>
      let (d, nd, r5) := readDigits 2 r4 0 0
      if nd = 0 then none else
      match r5 with
      | [] =>
        if 1 ≤ y ∧ 1 ≤ m ∧ m ≤ 12 ∧ 1 ≤ d ∧ d ≤ daysInMonth y m then
          some ⟨y, m, d⟩
        else none
      | _ => none
    | _ => none
  | _ => none

/-- Optional leading sign; `true` means negative. -/
def readSign : List Char → Bool × List Char
  | '+' :: r => (false, r)
  | '-' :: r => (true, r)
  | r => (false, r)

/-- Walk the characters with `prev` the character just before the current
rest; a digit-group underscore is legal only directly between two digits,
and is dropped (PEP 515, as `float()` enforces it). -/
def dropUnderscoresAux (prev : Char) : List Char → Option (List Char)
  | [] => some []
  | '_' :: rest =>
    match rest with
    | d :: _ =>
      if prev.isDigit ∧ d.isDigit then dropUnderscoresAux prev rest
      else none
    | [] => none
  | c :: rest => (dropUnderscoresAux c rest).map (fun r => c :: r)

/-- Validate and remove the digit-group underscores `float()` accepts:
every underscore must sit directly between two digits; otherwise the
literal is rejected. -/
def dropUnderscores : List Char → Option (List Char)
  | [] => some []
  | '_' :: _ => none
  | c :: rest => (dropUnderscoresAux c rest).map (fun r => c :: r)

/-- Embedding of Python `float(string)` restricted to finite decimal
literals: optional surrounding whitespace, optional sign, digits with an
optional decimal point (at least one digit overall), an optional decimal
exponent, and digit-group underscores between digits.  The special values
`inf`/`infinity`/`nan` are a deliberate idealisation gap: the model keeps
weights exact as rationals, which cannot carry them, so those three
spellings (and non-ASCII digits) are treated as unparseable. -/
def parseFloat (s : String) : Option ℚ :=
  match dropUnderscores (s.data.dropWhile (fun c => c.isWhitespace)) with
  | none => none
  | some t =>
  let (neg, t1) := readSign t
  let (ip, ni, t2) := readNat t1 0 0
  let (fp, nf, t3) :=
    match t2 with
    | '.' :: r => readNat r 0 0
    | _ => (0, 0, t2)
  if ni = 0 ∧ nf = 0 then none else
  let mant : ℚ := (ip : ℚ) + (fp : ℚ) / ((10 : ℚ) ^ nf)
  let signed : ℚ := if neg then -mant else mant
  match t3 with
  | 'e' :: r | 'E' :: r =>
    let (eneg, r1) := readSign r
    let (ev, ne, r2) := readNat r1 0 0
    if ne = 0 then none else
    if r2.all (fun c => c.isWhitespace) then
      some (if eneg then signed / (10 : ℚ) ^ ev else signed * (10 : ℚ) ^ ev)
    else none
  | r => if r.all (fun c => c.isWhitespace) then some signed else none

/-- One crate record, mirroring the columns of the `crates` table. -/
structure Crate where
  id : Nat
  run_number : Option String
  puc : String
  farm_name : String
  commodity : String
  variety : Option String
  grade_class : Option String
  size : Option String
  weight : Option ℚ
  date_received : Date
  inspector_notes : Option String
  created_at : DateTime
deriving DecidableEq, Repr

/-- The `crates` table plus the primary-key allocator. -/
structure DB where
  crates : List Crate
  nextId : Nat
deriving DecidableEq, Repr

/-- Well-formedness of the store: every assigned id is below the allocator
counter (SQLite hands out fresh, strictly increasing rowids). -/
def DB.WF (db : DB) : Prop := ∀ c ∈ db.crates, c.id < db.nextId

/-- Python truthiness coercion `x or None` on an optional string: an absent
value stays absent and an empty string becomes absent. -/
def orNone : Option String → Option String
  | none => none
  | some s => if s = "" then none else some s

/-- The `POST /add` form fields as received: a missing key is `none`, a key
submitted with an empty value is `some ""`. -/
structure FormData where
  run_number : Option String := none
  puc : Option String := none
  farm_name : Option String := none
  commodity : Option String := none
  variety : Option String := none
  grade_class : Option String := none
  size : Option String := none
  weight : Option String := none
  date_received : Option String := none
  inspector_notes : Option String := none
deriving DecidableEq, Repr

/-- The `POST /api/crates` JSON body.  Field values are modelled as strings
(a JSON number behaves like its decimal rendering in the one place, the
`weight`, where the handler coerces with `float`). -/
structure ApiPayload where
  run_number : Option String := none
  puc : Option String := none
  farm_name : Option String := none
  commodity : Option String := none
  variety : Option String := none
  grade_class : Option String := none
  size : Option String := none
  weight : Option String := none
  date_received : Option String := none
  inspector_notes : Option String := none
deriving DecidableEq, Repr

/-- Failures raised while building a `Crate` on the insert paths. -/
inductive InsertError
  /-- `KeyError` from `data["…"]` on the form path. -/
  | missingField (name : String)
  /-- The API 400 response `puc, farm_name and commodity are required`. -/
  | requiredFields
  /-- `ValueError` from `float(…)` on a non-empty unparseable weight. -/
  | badWeight (s : String)
  /-- `ValueError` from `strptime(…)` on a non-empty unparseable date. -/
  | badDate (s : String)
deriving DecidableEq, Repr

/-- Embedding of `float(data["weight"]) if data.get("weight") else None`:
absent or
empty means no weight, a non-empty value must parse. -/
def evalWeight (w : Option String) : Except InsertError (Option ℚ) :=
  match orNone w with
  | none => .ok none
  | some s =>
    match parseFloat s with
    | some q => .ok (some q)
    | none => .error (.badWeight s)

/-- Embedding of `strptime(data["date_received"], "%Y-%m-%d").date() if
data.get("date_received") else utcnow().date()`. -/
def evalDate (today : Date) (d : Option String) : Except InsertError Date :=
  match orNone d with
  | none => .ok today
  | some s =>
    match parseDate s with
    | some dt => .ok dt
    | none => .error (.badDate s)

/-- Embedding of the `POST /add` handler body (`add_crate`): the `Crate`
constructor arguments are evaluated in Python order, so the first failing
expression decides the exception; on success the record is committed with a
fresh id and the current timestamp. -/
def addCrate (db : DB) (now : DateTime) (f : FormData) :
    Except InsertError (DB × Crate) :=
  match f.puc with
  | none => .error (.missingField "puc")
  | some puc =>
    match f.farm_name with
    | none => .error (.missingField "farm_name")
    | some farm_name =>
      match f.commodity with
      | none => .error (.missingField "commodity")
      | some commodity =>
        match evalWeight f.weight with
        | .error e => .error e
        | .ok weight =>
          match evalDate now.date f.date_received with
          | .error e => .error e
          | .ok date_received =>
            let c : Crate :=
              { id := db.nextId, run_number := orNone f.run_number,
                puc := puc, farm_name := farm_name, commodity := commodity,
                variety := orNone f.variety,
                grade_class := orNone f.grade_class, size := orNone f.size,
                weight := weight, date_received := date_received,
                inspector_notes := orNone f.inspector_notes,
                created_at := now }
            .ok ({ crates := db.crates ++ [c], nextId := db.nextId + 1 }, c)

/-- Embedding of `POST /api/crates` (`api_crates`): the required-field
check uses Python truthiness (absent and empty both fail with the 400
payload); the optional string fields are stored exactly as supplied — this
path has no `or None` normalisation; `float`/`strptime` failures propagate
as uncaught exceptions before anything is added to the session. -/
def apiCreate (db : DB) (now : DateTime) (p : ApiPayload) :
    Except InsertError (DB × Crate) :=
  match orNone p.puc with
  | none => .error .requiredFields
  | some puc =>
    match orNone p.farm_name with
    | none => .error .requiredFields
    | some farm_name =>
      match orNone p.commodity with
      | none => .error .requiredFields
      | some commodity =>
        match evalWeight p.weight with
        | .error e => .error e
        | .ok weight =>
          match evalDate now.date p.date_received with
          | .error e => .error e
          | .ok date_received =>
            let c : Crate :=
              { id := db.nextId, run_number := p.run_number,
                puc := puc, farm_name := farm_name, commodity := commodity,
                variety := p.variety, grade_class := p.grade_class,
                size := p.size, weight := weight,
                date_received := date_received,
                inspector_notes := p.inspector_notes, created_at := now }
            .ok ({ crates := db.crates ++ [c], nextId := db.nextId + 1 }, c)

/-- Effect of a form `POST /add` request on the table: on any exception the
commit never runs and the table is unchanged. -/
def addCrateState (db : DB) (now : DateTime) (f : FormData) : DB :=
  match addCrate db now f with
  | .ok (db2, _) => db2
  | .error _ => db

/-- Effect of a `POST /api/crates` request on the table. -/
def apiCreateState (db : DB) (now : DateTime) (p : ApiPayload) : DB :=
  match apiCreate db now p with
  | .ok (db2, _) => db2
  | .error _ => db

/-- The dashboard query parameters (`run`, `puc`, `commodity`, `farm`);
absent is `none`, supplied-but-empty is `some ""`. -/
structure Filters where
  run : Option String := none
  puc : Option String := none
  commodity : Option String := none
  farm : Option String := none
deriving DecidableEq, Repr

/-- SQL `LIKE` pattern matching over characters: `%` matches any sequence,
`_` matches exactly one character, every other character matches itself,
and the pattern must cover the whole string. -/
def likeMatch : List Char → List Char → Bool
  | [], s => s.isEmpty
  | p :: ps, s =>
    if p = '%' then s.tails.any (fun t => likeMatch ps t)
    else
      match s with
      | [] => false
      | c :: s2 => (if p = '_' then true else c == p) && likeMatch ps s2

/-- SQL `lower()` over the characters of a string (ASCII-only case folding, as
in SQLite). -/
def lowerStr (s : String) : List Char := s.data.map Char.toLower

/-- Embedding of `column.ilike(f"%{f}%")` as SQLAlchemy renders it on
SQLite: `lower(column) LIKE lower('%' || f || '%')`. -/
def ilikeSub (field f : String) : Bool :=
  likeMatch (lowerStr ("%" ++ f ++ "%")) (lowerStr field)

/-- The `run` filter when active (truthy query parameter): SQL equality
against the nullable `run_number` column (NULL never equals a value). -/
def runFilter (o : Option String) (x : Option String) : Bool :=
  match orNone o with
  | some r => x == some r
  | none => true

/-- An `ilike` filter when active (truthy query parameter). -/
def ilikeFilter (o : Option String) (x : String) : Bool :=
  match orNone o with
  | some p => ilikeSub x p
  | none => true

/-- The WHERE clause the dashboard builds: each filter applies only when
its query parameter is truthy (present and non-empty). -/
def crateMatches (fl : Filters) (c : Crate) : Bool :=
  runFilter fl.run c.run_number && ilikeFilter fl.puc c.puc &&
    ilikeFilter fl.commodity c.commodity && ilikeFilter fl.farm c.farm_name

/-- Strict calendar order on dates. -/
def dateLt (a b : Date) : Prop :=
  a.year < b.year ∨
    (a.year = b.year ∧
      (a.month < b.month ∨ (a.month = b.month ∧ a.day < b.day)))

instance : DecidableRel dateLt := fun a b => by unfold dateLt; exact inferInstance

/-- The order `ORDER BY date_received DESC, id DESC` as a total preorder:
`a` sorts
no later than `b` when the key `(date_received, id)` of `a` is at least
that of `b`. -/
def dashLe (a b : Crate) : Prop :=
  dateLt b.date_received a.date_received ∨
    (b.date_received = a.date_received ∧ b.id ≤ a.id)

instance : DecidableRel dashLe := fun a b => by unfold dashLe; exact inferInstance

/-- The order `ORDER BY date_received DESC` only (the CSV export). -/
def exportLe (a b : Crate) : Prop :=
  dateLt b.date_received a.date_received ∨ b.date_received = a.date_received

instance : DecidableRel exportLe := fun a b => by unfold exportLe; exact inferInstance

/-- The order `ORDER BY id DESC` (the JSON list). -/
def idLe (a b : Crate) : Prop := b.id ≤ a.id

instance : DecidableRel idLe := fun a b => by unfold idLe; exact inferInstance

/-- Embedding of the dashboard query: WHERE the active filters, ORDER BY
`date_received` DESC, `id` DESC. -/
def dashboardCrates (db : DB) (fl : Filters) : List Crate :=
  List.insertionSort dashLe (db.crates.filter (crateMatches fl))

/-- The aggregate block rendered under the dashboard table. -/
structure Totals where
  count : Nat
  total_weight : ℚ
deriving DecidableEq, Repr

/-- Embedding of `totals` with count `len(crates)` and weight
`sum(c.weight or 0
for c in crates)}` over the filtered result (`x or 0` sends both `None`
and `0.0` to `0`, which is numerically `Option.getD 0`). -/
def dashboardTotals (db : DB) (fl : Filters) : Totals :=
  let crates := dashboardCrates db fl
  { count := crates.length,
    total_weight := (crates.map (fun c => c.weight.getD 0)).sum }

/-- Embedding of `Crate.query.get_or_404(crate_id)`: the record with the given primary
key, or the 404 condition (`none`). -/
def getCrate (db : DB) (i : Nat) : Option Crate :=
  db.crates.find? (fun c => c.id == i)

/-- Zero-pad to two digits. -/
def pad2 (n : Nat) : String :=
  if n < 10 then "0" ++ toString n else toString n

/-- Zero-pad to four digits. -/
def pad4 (n : Nat) : String :=
  if n < 10 then "000" ++ toString n
  else if n < 100 then "00" ++ toString n
  else if n < 1000 then "0" ++ toString n
  else toString n

/-- Rendering `date.isoformat()`: `YYYY-MM-DD`. -/
def isoDate (d : Date) : String :=
  pad4 d.year ++ "-" ++ pad2 d.month ++ "-" ++ pad2 d.day

/-- Rendering `datetime.isoformat()` at whole-second precision:
`YYYY-MM-DDTHH:MM:SS`. -/
def isoDateTime (t : DateTime) : String :=
  isoDate t.date ++ "T" ++ pad2 t.hour ++ ":" ++ pad2 t.minute ++ ":" ++
    pad2 t.second

/-- How `csv.writer` renders an optional string cell: `None` → empty. -/
def optCell : Option String → String
  | none => ""
  | some s => s

/-- The float weight cell: `None` → empty cell.  The exact digit format of
the Python float repr is not load-bearing for any stated property, so the
plain rendering of the rational stands in for it. -/
def weightCell : Option ℚ → String
  | none => ""
  | some w => toString w

/-- The fixed CSV header row. -/
def csvHeader : List String :=
  ["id", "run_number", "puc", "farm_name", "commodity", "variety",
   "grade_class", "size", "weight", "date_received", "inspector_notes"]

/-- Embedding of `str.replace("\n", "\\n")` over the character list: every
newline character becomes the two characters backslash, `n` (the pattern
being a single character, the Python replace is exactly this map). -/
def replaceNl : List Char → List Char
  | [] => []
  | c :: s =>
    if c = '\n' then '\\' :: 'n' :: replaceNl s else c :: replaceNl s

/-- One data row of the export (the `writer.writerow` call in `export_csv`):
the date renders as ISO, and `(c.inspector_notes or "")` has every literal
newline replaced by the two-character sequence backslash-n. -/
def csvRow (c : Crate) : List String :=
  [toString c.id, optCell c.run_number, c.puc, c.farm_name, c.commodity,
   optCell c.variety, optCell c.grade_class, optCell c.size,
   weightCell c.weight, isoDate c.date_received,
   String.mk (replaceNl (c.inspector_notes.getD "").data)]

/-- The rows (header plus data) of `GET /export/csv`: all records, ordered
by `date_received` descending only (stable, so date ties keep store
order). -/
def exportRows (db : DB) : List (List String) :=
  csvHeader :: (List.insertionSort exportLe db.crates).map csvRow

/-- JSON values as they appear in the API serialisations. -/
inductive JVal
  | null
  | str (s : String)
  | num (q : ℚ)
deriving DecidableEq, Repr

/-- An optional string field in JSON: `None` → `null`. -/
def optJ : Option String → JVal
  | none => .null
  | some s => .str s

/-- Embedding of `Crate.to_dict`: every column, with `date_received` and `created_at`
rendered as ISO-8601 strings (`date_received` is a non-nullable column, so
its `if … else None` guard always takes the string branch). -/
def toDict (c : Crate) : List (String × JVal) :=
  [("id", .num (c.id : ℚ)), ("run_number", optJ c.run_number),
   ("puc", .str c.puc), ("farm_name", .str c.farm_name),
   ("commodity", .str c.commodity), ("variety", optJ c.variety),
   ("grade_class", optJ c.grade_class), ("size", optJ c.size),
   ("weight", match c.weight with | none => JVal.null | some w => JVal.num w),
   ("date_received", .str (isoDate c.date_received)),
   ("inspector_notes", optJ c.inspector_notes),
   ("created_at", .str (isoDateTime c.created_at))]

/-- Embedding of `GET /api/crates`: every record, `id` descending, via `to_dict`. -/
def apiList (db : DB) : List (List (String × JVal)) :=
  (List.insertionSort idLe db.crates).map toDict

/-! ### Totality and transitivity of the three ORDER BY relations -/

instance : IsTotal Crate dashLe :=
  ⟨fun a b => by
    unfold dashLe dateLt
    cases a.date_received with
    | mk y₁ m₁ d₁ =>
    cases b.date_received with
    | mk y₂ m₂ d₂ =>
    simp only [Date.mk.injEq]
    omega⟩

instance : IsTrans Crate dashLe :=
  ⟨fun a b c hab hbc => by
    unfold dashLe dateLt at hab hbc ⊢
    revert hab hbc
    cases a.date_received with
    | mk y₁ m₁ d₁ =>
    cases b.date_received with
    | mk y₂ m₂ d₂ =>
    cases c.date_received with
    | mk y₃ m₃ d₃ =>
    simp only [Date.mk.injEq]
    omega⟩

instance : IsTotal Crate exportLe :=
  ⟨fun a b => by
    unfold exportLe dateLt
    cases a.date_received with
    | mk y₁ m₁ d₁ =>
    cases b.date_received with
    | mk y₂ m₂ d₂ =>
    simp only [Date.mk.injEq]
    omega⟩

instance : IsTrans Crate exportLe :=
  ⟨fun a b c hab hbc => by
    unfold exportLe dateLt at hab hbc ⊢
    revert hab hbc
    cases a.date_received with
    | mk y₁ m₁ d₁ =>
    cases b.date_received with
    | mk y₂ m₂ d₂ =>
    cases c.date_received with
    | mk y₃ m₃ d₃ =>
    simp only [Date.mk.injEq]
    omega⟩

instance : IsTotal Crate idLe :=
  ⟨fun a b => by unfold idLe; omega⟩

instance : IsTrans Crate idLe :=
  ⟨fun a b c hab hbc => by unfold idLe at hab hbc ⊢; omega⟩

/-! ### LIKE patterns versus substring matching -/

/-- A character list free of the SQL LIKE wildcards. -/
def noWildL (l : List Char) : Prop := ∀ c ∈ l, c ≠ '%' ∧ c ≠ '_'

/-- A filter string free of the SQL LIKE wildcards. -/
def noWild (s : String) : Prop := ∀ c ∈ s.data, c ≠ '%' ∧ c ≠ '_'

instance (s : String) : Decidable (noWild s) := by
  unfold noWild; exact inferInstance

/-! ### Spec-side filter semantics and its relation to the WHERE clause -/

/-- The exact-match semantics of the spec for the `run` filter: when supplied,
`run_number` must equal it; absent imposes no constraint. -/
def specRunFilter (o : Option String) (x : Option String) : Bool :=
  match o with
  | some r => x == some r
  | none => true

/-- The substring semantics of the spec for the three text filters: when
supplied, the field must contain the filter as a case-insensitive
substring; absent imposes no constraint. -/
def specSubFilter (o : Option String) (x : String) : Bool :=
  match o with
  | some p => decide (lowerStr p <:+: lowerStr x)
  | none => true

/-- The filter predicate of the spec, written from its words (`run`
exact, the rest case-insensitive substring, absent unconstrained). -/
def specMatches (fl : Filters) (c : Crate) : Bool :=
  specRunFilter fl.run c.run_number && specSubFilter fl.puc c.puc &&
    specSubFilter fl.commodity c.commodity &&
    specSubFilter fl.farm c.farm_name

/-- No wildcard in an optional filter string. -/
def noWildO : Option String → Prop
  | none => True
  | some s => noWild s

instance (o : Option String) : Decidable (noWildO o) :=
  match o with
  | none => inferInstanceAs (Decidable True)
  | some s => inferInstanceAs (Decidable (noWild s))

/-- A truthy weight input that `float()` rejects. -/
def badWeightIn (w : Option String) : Bool :=
  match orNone w with
  | none => false
  | some s => (parseFloat s).isNone

/-- A truthy date input that `strptime()` rejects. -/
def badDateIn (d : Option String) : Bool :=
  match orNone d with
  | none => false
  | some s => (parseDate s).isNone

/-- Exactly the form inputs the `add_crate` try-block raises on. -/
def formInvalid (f : FormData) : Bool :=
  f.puc.isNone || f.farm_name.isNone || f.commodity.isNone ||
    badWeightIn f.weight || badDateIn f.date_received

/-- Exactly the payloads the API create path rejects or raises on. -/
def apiInvalid (p : ApiPayload) : Bool :=
  (orNone p.puc).isNone || (orNone p.farm_name).isNone ||
    (orNone p.commodity).isNone || badWeightIn p.weight ||
    badDateIn p.date_received

/-- What each raised error says about the form input: the reported failure
really is present in the input. -/
def errCauseForm (e : InsertError) (f : FormData) : Prop :=
  match e with
  | .missingField n =>
      (n = "puc" ∧ f.puc = none) ∨ (n = "farm_name" ∧ f.farm_name = none) ∨
        (n = "commodity" ∧ f.commodity = none)
  | .requiredFields => False
  | .badWeight s => orNone f.weight = some s ∧ parseFloat s = none
  | .badDate s => orNone f.date_received = some s ∧ parseDate s = none

/-- What each raised error says about the JSON payload. -/
def errCauseApi (e : InsertError) (p : ApiPayload) : Prop :=
  match e with
  | .missingField _ => False
  | .requiredFields =>
      orNone p.puc = none ∨ orNone p.farm_name = none ∨
        orNone p.commodity = none
  | .badWeight s => orNone p.weight = some s ∧ parseFloat s = none
  | .badDate s => orNone p.date_received = some s ∧ parseDate s = none

/-! ### Fetch-by-id -/

instance (db : DB) : Decidable db.WF := by
  unfold DB.WF; exact inferInstance

/-! ### Concrete fixtures -/

/-- A sample request clock: 2024-05-06 12:00:00 UTC. -/
def t0 : DateTime := ⟨⟨2024, 5, 6⟩, 12, 0, 0⟩

/-- An empty store whose next primary key is 1. -/
def db0 : DB := { crates := [], nextId := 1 }

/-- A minimal valid crate used by several fixtures. -/
def crBase : Crate :=
  { id := 1, run_number := none, puc := "P1", farm_name := "Farm",
    commodity := "Apple", variety := none, grade_class := none,
    size := none, weight := none, date_received := ⟨2024, 1, 1⟩,
    inspector_notes := none, created_at := t0 }

def crA : Crate := crBase

def crB : Crate := { crBase with id := 2, date_received := ⟨2024, 1, 2⟩ }

def crC : Crate := { crBase with id := 3, date_received := ⟨2024, 1, 2⟩ }

/-- The store of the ordering example: dates 2024-01-01, 2024-01-02, 2024-01-02
under ids 1, 2, 3. -/
def dbOrd : DB := { crates := [crA, crB, crC], nextId := 4 }

/-- No query parameters supplied. -/
def noFilters : Filters := {}

/-- A record whose `puc` is `aXb`. -/
def crX : Crate := { crBase with puc := "aXb" }

def dbX : DB := { crates := [crX], nextId := 2 }

/-- The dashboard query `puc=a_b` (`_` is a LIKE wildcard). -/
def flX : Filters := { puc := some "a_b" }

/-- A form POST whose required `puc` is supplied but empty. -/
def formEmptyPuc : FormData :=
  { puc := some "", farm_name := some "Farm", commodity := some "Apple" }

/-- The record `formEmptyPuc` persists. -/
def crEmptyPuc : Crate :=
  { id := 1, run_number := none, puc := "", farm_name := "Farm",
    commodity := "Apple", variety := none, grade_class := none, size := none,
    weight := none, date_received := t0.date, inspector_notes := none,
    created_at := t0 }

/-- A minimal valid form input. -/
def formABC : FormData :=
  { puc := some "A", farm_name := some "B", commodity := some "C" }

/-- The same three required fields as a JSON payload. -/
def payloadGood : ApiPayload :=
  { puc := some "A", farm_name := some "B", commodity := some "C" }

/-- The record either minimal insert persists against `db0` at `t0`. -/
def crGood : Crate :=
  { id := 1, run_number := none, puc := "A", farm_name := "B",
    commodity := "C", variety := none, grade_class := none, size := none,
    weight := none, date_received := t0.date, inspector_notes := none,
    created_at := t0 }

/-- A JSON payload with an empty required `puc`. -/
def payloadEmptyPuc : ApiPayload :=
  { puc := some "", farm_name := some "B", commodity := some "C" }

/-- A form input missing `puc` entirely. -/
def formNoPuc : FormData := { farm_name := some "B", commodity := some "C" }

/-- A form input with an unparseable weight. -/
def formBadWeight : FormData :=
  { puc := some "A", farm_name := some "B", commodity := some "C",
    weight := some "abc" }

/-- A JSON payload with an unparseable date (month 13). -/
def payloadBadDate : ApiPayload :=
  { puc := some "A", farm_name := some "B", commodity := some "C",
    date_received := some "2024-13-01" }

/-- A JSON payload supplying the optional `variety` as the empty string. -/
def payloadEmptyVariety : ApiPayload :=
  { puc := some "A", farm_name := some "B", commodity := some "C",
    variety := some "" }

/-- The record `payloadEmptyVariety` persists: `variety` is stored as the
empty string. -/
def crEmptyVariety : Crate := { crGood with variety := some "" }

/-- A form input supplying every optional field as the empty string. -/
def formAllEmpty : FormData :=
  { run_number := some "", puc := some "A", farm_name := some "B",
    commodity := some "C", variety := some "", grade_class := some "",
    size := some "", weight := some "", date_received := some "",
    inspector_notes := some "" }

/-- A record with a two-line inspectors note. -/
def crNotes : Crate :=
  { crBase with id := 4, inspector_notes := some "line1\nline2" }

/-- Weighted records for the totals example. -/
def crW1 : Crate := { crBase with id := 5, weight := some 2 }

def crW2 : Crate :=
  { crBase with id := 6, commodity := "apples", weight := none }

def crW3 : Crate :=
  { crBase with id := 7, commodity := "Pear", weight := some 100 }

def dbW : DB := { crates := [crW1, crW2, crW3], nextId := 8 }

/-- A one-record store for the export witness. -/
def dbNotes : DB := { crates := [crNotes], nextId := 5 }

theorem likeMatch_lit_pct {lit : List Char} (hw : noWildL lit) :
    ∀ s, likeMatch (lit ++ ['%']) s = true ↔ lit <+: s := by
  induction lit with
  | nil =>
    intro s
    simp only [List.nil_append]
    constructor
    · intro _; exact List.nil_prefix
    · intro _
      show likeMatch ('%' :: []) s = true
      simp only [likeMatch, if_true]
      rw [List.any_eq_true]
      exact ⟨[], (List.mem_tails _ _).mpr List.nil_suffix, rfl⟩
  | cons c lit ih =>
    intro s
    have hc := hw c (List.mem_cons_self ..)
    have hw2 : noWildL lit := fun x hx => hw x (List.mem_cons_of_mem _ hx)
    cases s with
    | nil =>
      simp only [List.cons_append, likeMatch, if_neg hc.1]
      simp [ List.prefix_nil]
    | cons d s2 =>
      simp only [List.cons_append, likeMatch, if_neg hc.1, if_neg hc.2,
        List.append_eq]
      rw [Bool.and_eq_true, beq_iff_eq, ih hw2 s2, List.cons_prefix_cons]
      constructor
      · rintro ⟨h1, h2⟩; exact ⟨h1.symm, h2⟩
      · rintro ⟨h1, h2⟩; exact ⟨h1.symm, h2⟩

theorem likeMatch_sub {lit : List Char} (hw : noWildL lit) (s : List Char) :
    likeMatch ('%' :: (lit ++ ['%'])) s = true ↔ lit <:+: s := by
  simp only [likeMatch, if_true]
  rw [List.any_eq_true, List.infix_iff_prefix_suffix]
  constructor
  · rintro ⟨t, ht, hm⟩
    exact ⟨t, (likeMatch_lit_pct hw t).mp hm, (List.mem_tails _ _).mp ht⟩
  · rintro ⟨t, hpre, hsuf⟩
    exact ⟨t, (List.mem_tails _ _).mpr hsuf, (likeMatch_lit_pct hw t).mpr hpre⟩

theorem ofNat_lower_ne_wild (m : Nat) (h1 : 97 ≤ m) (h2 : m ≤ 122) :
    Char.ofNat m ≠ '%' ∧ Char.ofNat m ≠ '_' := by
  interval_cases m <;> exact ⟨by decide, by decide⟩

theorem toLower_ne_wild {c : Char} (h1 : c ≠ '%') (h2 : c ≠ '_') :
    Char.toLower c ≠ '%' ∧ Char.toLower c ≠ '_' := by
  simp only [Char.toLower]
  split
  · next h => exact ofNat_lower_ne_wild _ (by omega) (by omega)
  · exact ⟨h1, h2⟩

theorem noWildL_lowerStr {s : String} (h : noWild s) : noWildL (lowerStr s) := by
  intro c hc
  simp only [lowerStr, List.mem_map] at hc
  obtain ⟨d, hd, rfl⟩ := hc
  exact toLower_ne_wild (h d hd).1 (h d hd).2

theorem lowerStr_pattern (f : String) :
    lowerStr ("%" ++ f ++ "%") = '%' :: (lowerStr f ++ ['%']) := by
  simp [lowerStr, String.data_append]

/-- For a wildcard-free filter, the generated `ilike` pattern is exactly
case-insensitive substring containment. -/
theorem ilikeSub_iff {field f : String} (h : noWild f) :
    ilikeSub field f = true ↔ lowerStr f <:+: lowerStr field := by
  unfold ilikeSub
  rw [lowerStr_pattern]
  exact likeMatch_sub (noWildL_lowerStr h) _

theorem bool_eq_of_iff {a b : Bool} (h : a = true ↔ b = true) : a = b := by
  cases a <;> cases b <;> simp_all

theorem orNone_eq_some {o : Option String} {s : String}
    (h : orNone o = some s) : o = some s ∧ s ≠ "" := by
  cases o with
  | none => cases h
  | some t =>
    by_cases ht : t = ""
    · subst ht; simp [orNone] at h
    · simp only [orNone, if_neg ht] at h
      cases h; exact ⟨rfl, ht⟩

theorem orNone_ne_empty (o : Option String) : orNone o ≠ some "" :=
  fun h => (orNone_eq_some h).2 rfl

theorem runFilter_eq_spec {o : Option String} (h : o ≠ some "")
    (x : Option String) : runFilter o x = specRunFilter o x := by
  unfold runFilter specRunFilter
  cases o with
  | none => rfl
  | some r =>
    have hr : r ≠ "" := fun e => h (by rw [e])
    rw [show orNone (some r) = some r by simp [orNone, hr]]

theorem ilikeFilter_eq_spec {o : Option String} (h : noWildO o) (x : String) :
    ilikeFilter o x = specSubFilter o x := by
  unfold ilikeFilter specSubFilter
  cases o with
  | none => rfl
  | some p =>
    by_cases hp : p = ""
    · subst hp
      rw [show orNone (some "") = none by simp [orNone]]
      have hi : lowerStr "" <:+: lowerStr x := by
        show ([] : List Char).map Char.toLower <:+: _
        simp [ List.nil_infix]
      simp [hi]
    · rw [show orNone (some p) = some p by simp [orNone, hp]]
      exact bool_eq_of_iff (by rw [ilikeSub_iff h, decide_eq_true_iff])

/-- On wildcard-free, non-degenerate filters the dashboard WHERE clause
is exactly the filter semantics of the spec. -/
theorem crateMatches_eq_spec {fl : Filters} (c : Crate)
    (hrun : fl.run ≠ some "") (hp : noWildO fl.puc)
    (hcm : noWildO fl.commodity) (hf : noWildO fl.farm) :
    crateMatches fl c = specMatches fl c := by
  unfold crateMatches specMatches
  rw [runFilter_eq_spec hrun, ilikeFilter_eq_spec hp,
    ilikeFilter_eq_spec hcm, ilikeFilter_eq_spec hf]

/-! ### Inversion and characterisation of the insert paths -/

theorem evalWeight_none {w : Option String} {q : Option ℚ}
    (hw : orNone w = none) (h : evalWeight w = .ok q) : q = none := by
  unfold evalWeight at h
  rw [hw] at h
  injection h with h2
  exact h2.symm

theorem evalDate_none {today : Date} {d : Option String} {dd : Date}
    (hd : orNone d = none) (h : evalDate today d = .ok dd) : dd = today := by
  unfold evalDate at h
  rw [hd] at h
  injection h with h2
  exact h2.symm

theorem evalWeight_error {w : Option String} {e : InsertError}
    (h : evalWeight w = .error e) :
    ∃ s, e = .badWeight s ∧ orNone w = some s ∧ parseFloat s = none := by
  cases hw : orNone w with
  | none => simp [evalWeight, hw] at h
  | some s =>
    cases hp : parseFloat s with
    | none =>
      simp [evalWeight, hw, hp] at h
      exact ⟨s, h.symm, rfl, hp⟩
    | some q => simp [evalWeight, hw, hp] at h

theorem evalDate_error {today : Date} {d : Option String} {e : InsertError}
    (h : evalDate today d = .error e) :
    ∃ s, e = .badDate s ∧ orNone d = some s ∧ parseDate s = none := by
  cases hd : orNone d with
  | none => simp [evalDate, hd] at h
  | some s =>
    cases hp : parseDate s with
    | none =>
      simp [evalDate, hd, hp] at h
      exact ⟨s, h.symm, rfl, hp⟩
    | some q => simp [evalDate, hd, hp] at h

theorem evalWeight_isOk (w : Option String) :
    (evalWeight w).isOk = !(badWeightIn w) := by
  unfold evalWeight badWeightIn
  cases orNone w with
  | none => rfl
  | some s =>
    dsimp only
    cases parseFloat s <;> rfl

theorem evalDate_isOk (today : Date) (d : Option String) :
    (evalDate today d).isOk = !(badDateIn d) := by
  unfold evalDate badDateIn
  cases orNone d with
  | none => rfl
  | some s =>
    dsimp only
    cases parseDate s <;> rfl

theorem addCrate_isOk (db : DB) (now : DateTime) (f : FormData) :
    (addCrate db now f).isOk = !(formInvalid f) := by
  unfold addCrate formInvalid
  cases f.puc with
  | none => rfl
  | some puc =>
    cases f.farm_name with
    | none => rfl
    | some fn =>
      cases f.commodity with
      | none => rfl
      | some cm =>
        cases hw : evalWeight f.weight with
        | error e =>
          obtain ⟨s, _, hw2, hp⟩ := evalWeight_error hw
          have hb : badWeightIn f.weight = true := by
            simp [badWeightIn, hw2, hp]
          simp [hb, Except.isOk, Except.toBool]
        | ok w =>
          have hb : badWeightIn f.weight = false := by
            have h1 := evalWeight_isOk f.weight
            rw [hw] at h1
            simpa using h1.symm
          cases hd : evalDate now.date f.date_received with
          | error e2 =>
            obtain ⟨s, _, hd2, hp⟩ := evalDate_error hd
            have hbd : badDateIn f.date_received = true := by
              simp [badDateIn, hd2, hp]
            simp [hb, hbd, Except.isOk, Except.toBool]
          | ok d =>
            have hbd : badDateIn f.date_received = false := by
              have h1 := evalDate_isOk now.date f.date_received
              rw [hd] at h1
              simpa using h1.symm
            simp [hb, hbd, Except.isOk, Except.toBool]

theorem apiCreate_isOk (db : DB) (now : DateTime) (p : ApiPayload) :
    (apiCreate db now p).isOk = !(apiInvalid p) := by
  unfold apiCreate apiInvalid
  cases orNone p.puc with
  | none => rfl
  | some puc =>
    cases orNone p.farm_name with
    | none => rfl
    | some fn =>
      cases orNone p.commodity with
      | none => rfl
      | some cm =>
        cases hw : evalWeight p.weight with
        | error e =>
          obtain ⟨s, _, hw2, hp⟩ := evalWeight_error hw
          have hb : badWeightIn p.weight = true := by
            simp [badWeightIn, hw2, hp]
          simp [hb, Except.isOk, Except.toBool]
        | ok w =>
          have hb : badWeightIn p.weight = false := by
            have h1 := evalWeight_isOk p.weight
            rw [hw] at h1
            simpa using h1.symm
          cases hd : evalDate now.date p.date_received with
          | error e2 =>
            obtain ⟨s, _, hd2, hp⟩ := evalDate_error hd
            have hbd : badDateIn p.date_received = true := by
              simp [badDateIn, hd2, hp]
            simp [hb, hbd, Except.isOk, Except.toBool]
          | ok d =>
            have hbd : badDateIn p.date_received = false := by
              have h1 := evalDate_isOk now.date p.date_received
              rw [hd] at h1
              simpa using h1.symm
            simp [hb, hbd, Except.isOk, Except.toBool]

theorem addCrateState_invalid {db : DB} {now : DateTime} {f : FormData}
    (h : formInvalid f = true) : addCrateState db now f = db := by
  unfold addCrateState
  cases hc : addCrate db now f with
  | error e => rfl
  | ok x =>
    have h1 := addCrate_isOk db now f
    rw [hc, h] at h1
    simp [Except.isOk, Except.toBool] at h1

theorem apiCreateState_invalid {db : DB} {now : DateTime} {p : ApiPayload}
    (h : apiInvalid p = true) : apiCreateState db now p = db := by
  unfold apiCreateState
  cases hc : apiCreate db now p with
  | error e => rfl
  | ok x =>
    have h1 := apiCreate_isOk db now p
    rw [hc, h] at h1
    simp [Except.isOk, Except.toBool] at h1

theorem addCrate_ok {db : DB} {now : DateTime} {f : FormData} {db2 : DB}
    {c : Crate} (h : addCrate db now f = .ok (db2, c)) :
    db2 = { crates := db.crates ++ [c], nextId := db.nextId + 1 } ∧
    c.id = db.nextId ∧ c.created_at = now ∧
    f.puc = some c.puc ∧ f.farm_name = some c.farm_name ∧
    f.commodity = some c.commodity ∧
    c.run_number = orNone f.run_number ∧ c.variety = orNone f.variety ∧
    c.grade_class = orNone f.grade_class ∧ c.size = orNone f.size ∧
    c.inspector_notes = orNone f.inspector_notes ∧
    evalWeight f.weight = .ok c.weight ∧
    evalDate now.date f.date_received = .ok c.date_received := by
  cases hp : f.puc with
  | none => simp [addCrate, hp] at h
  | some puc =>
  cases hf : f.farm_name with
  | none => simp [addCrate, hp, hf] at h
  | some fn =>
  cases hcm : f.commodity with
  | none => simp [addCrate, hp, hf, hcm] at h
  | some cm =>
  cases hw : evalWeight f.weight with
  | error e => simp [addCrate, hp, hf, hcm, hw] at h
  | ok w =>
  cases hd : evalDate now.date f.date_received with
  | error e => simp [addCrate, hp, hf, hcm, hw, hd] at h
  | ok d =>
    simp only [addCrate, hp, hf, hcm, hw, hd, Except.ok.injEq,
      Prod.mk.injEq] at h
    obtain ⟨h1, h2⟩ := h
    subst h2
    subst h1
    exact ⟨rfl, rfl, rfl, rfl, rfl, rfl, rfl, rfl, rfl, rfl, rfl, rfl, rfl⟩

theorem apiCreate_ok {db : DB} {now : DateTime} {p : ApiPayload} {db2 : DB}
    {c : Crate} (h : apiCreate db now p = .ok (db2, c)) :
    db2 = { crates := db.crates ++ [c], nextId := db.nextId + 1 } ∧
    c.id = db.nextId ∧ c.created_at = now ∧
    orNone p.puc = some c.puc ∧ orNone p.farm_name = some c.farm_name ∧
    orNone p.commodity = some c.commodity ∧
    c.run_number = p.run_number ∧ c.variety = p.variety ∧
    c.grade_class = p.grade_class ∧ c.size = p.size ∧
    c.inspector_notes = p.inspector_notes ∧
    evalWeight p.weight = .ok c.weight ∧
    evalDate now.date p.date_received = .ok c.date_received := by
  cases hp : orNone p.puc with
  | none => simp [apiCreate, hp] at h
  | some puc =>
  cases hf : orNone p.farm_name with
  | none => simp [apiCreate, hp, hf] at h
  | some fn =>
  cases hcm : orNone p.commodity with
  | none => simp [apiCreate, hp, hf, hcm] at h
  | some cm =>
  cases hw : evalWeight p.weight with
  | error e => simp [apiCreate, hp, hf, hcm, hw] at h
  | ok w =>
  cases hd : evalDate now.date p.date_received with
  | error e => simp [apiCreate, hp, hf, hcm, hw, hd] at h
  | ok d =>
    simp only [apiCreate, hp, hf, hcm, hw, hd, Except.ok.injEq,
      Prod.mk.injEq] at h
    obtain ⟨h1, h2⟩ := h
    subst h2
    subst h1
    exact ⟨rfl, rfl, rfl, rfl, rfl, rfl, rfl, rfl, rfl, rfl, rfl, rfl, rfl⟩

theorem addCrate_error_cause {db : DB} {now : DateTime} {f : FormData}
    {e : InsertError} (h : addCrate db now f = .error e) : errCauseForm e f := by
  cases hp : f.puc with
  | none =>
    simp [addCrate, hp] at h
    subst h
    exact Or.inl ⟨rfl, hp⟩
  | some puc =>
  cases hf : f.farm_name with
  | none =>
    simp [addCrate, hp, hf] at h
    subst h
    exact Or.inr (Or.inl ⟨rfl, hf⟩)
  | some fn =>
  cases hcm : f.commodity with
  | none =>
    simp [addCrate, hp, hf, hcm] at h
    subst h
    exact Or.inr (Or.inr ⟨rfl, hcm⟩)
  | some cm =>
  cases hw : evalWeight f.weight with
  | error e0 =>
    simp [addCrate, hp, hf, hcm, hw] at h
    subst h
    obtain ⟨s, he, h2, h3⟩ := evalWeight_error hw
    subst he
    exact ⟨h2, h3⟩
  | ok w =>
  cases hd : evalDate now.date f.date_received with
  | error e0 =>
    simp [addCrate, hp, hf, hcm, hw, hd] at h
    subst h
    obtain ⟨s, he, h2, h3⟩ := evalDate_error hd
    subst he
    exact ⟨h2, h3⟩
  | ok d => simp [addCrate, hp, hf, hcm, hw, hd] at h

theorem apiCreate_error_cause {db : DB} {now : DateTime} {p : ApiPayload}
    {e : InsertError} (h : apiCreate db now p = .error e) : errCauseApi e p := by
  cases hp : orNone p.puc with
  | none =>
    simp [apiCreate, hp] at h
    subst h
    exact Or.inl hp
  | some puc =>
  cases hf : orNone p.farm_name with
  | none =>
    simp [apiCreate, hp, hf] at h
    subst h
    exact Or.inr (Or.inl hf)
  | some fn =>
  cases hcm : orNone p.commodity with
  | none =>
    simp [apiCreate, hp, hf, hcm] at h
    subst h
    exact Or.inr (Or.inr hcm)
  | some cm =>
  cases hw : evalWeight p.weight with
  | error e0 =>
    simp [apiCreate, hp, hf, hcm, hw] at h
    subst h
    obtain ⟨s, he, h2, h3⟩ := evalWeight_error hw
    subst he
    exact ⟨h2, h3⟩
  | ok w =>
  cases hd : evalDate now.date p.date_received with
  | error e0 =>
    simp [apiCreate, hp, hf, hcm, hw, hd] at h
    subst h
    obtain ⟨s, he, h2, h3⟩ := evalDate_error hd
    subst he
    exact ⟨h2, h3⟩
  | ok d => simp [apiCreate, hp, hf, hcm, hw, hd] at h

theorem getCrate_none {db : DB} {i : Nat} (h : ∀ c ∈ db.crates, c.id ≠ i) :
    getCrate db i = none := by
  unfold getCrate
  rw [List.find?_eq_none]
  intro x hx
  simp [h x hx]

theorem getCrate_append {db : DB} (hwf : db.WF) (c : Crate)
    (hc : c.id = db.nextId) :
    getCrate { crates := db.crates ++ [c], nextId := db.nextId + 1 } c.id =
      some c := by
  unfold getCrate
  rw [List.find?_append]
  have h1 : db.crates.find? (fun x => x.id == c.id) = none := by
    rw [List.find?_eq_none]
    intro x hx
    have hlt := hwf x hx
    simp only [beq_iff_eq]
    omega
  rw [h1, Option.none_or, List.find?_cons_of_pos _ (by simp)]

/-! ### Claim theorems -/

/-- C3, counterexample to the claim as stated: with the filter `puc=a_b`
(underscore is a LIKE wildcard) the dashboard returns the record whose puc
is `aXb`, although `a_b` is not a case-insensitive substring of `aXb`. -/
theorem filter_wildcard_counterexample :
    crX ∈ dashboardCrates dbX flX ∧ specMatches flX crX = false := by
  constructor
  · decide
  · decide

/-- C3 (amended): whenever the supplied text filters contain no SQL LIKE
wildcard (`%` or `_`) and the `run` filter is not the empty string, the
dashboard returns exactly the stored records satisfying all supplied
filters — `run_number` by exact equality, `puc`, `commodity`, `farm_name`
by case-insensitive substring — an absent filter imposing no constraint,
and an empty match set giving an empty list rather than an error. -/
theorem filter_semantics_amended (db : DB) (fl : Filters) (c : Crate)
    (hrun : fl.run ≠ some "") (hp : noWildO fl.puc)
    (hcm : noWildO fl.commodity) (hf : noWildO fl.farm) :
    c ∈ dashboardCrates db fl ↔ c ∈ db.crates ∧ specMatches fl c = true := by
  unfold dashboardCrates
  rw [List.mem_insertionSort, List.mem_filter,
    crateMatches_eq_spec c hrun hp hcm hf]

theorem filter_semantics_amended_witness :
    crX ∈ dashboardCrates dbX { puc := some "axb" } ↔
      crX ∈ dbX.crates ∧ specMatches { puc := some "axb" } crX = true :=
  filter_semantics_amended dbX { puc := some "axb" } crX (by decide)
    (by decide) (by decide) (by decide)

/-- C4: every dashboard result list is ordered by `date_received`
descending with ties broken by `id` descending; on the example of the spec
(dates 2024-01-01, 2024-01-02, 2024-01-02 under ids 1, 2, 3) the ids come
back as [3, 2, 1]. -/
theorem list_order_date_desc_id_desc :
    (∀ (db : DB) (fl : Filters),
      List.Sorted dashLe (dashboardCrates db fl)) ∧
    (dashboardCrates dbOrd noFilters).map Crate.id = [3, 2, 1] := by
  constructor
  · intro db fl
    exact List.sorted_insertionSort dashLe _
  · rfl

/-- C5: the dashboard totals over the filtered result: `count` is the
number of returned records and `total_weight` the sum of their weights
with an absent weight counted as zero; checked concretely on a store where
the filter drops one record and a kept record has no weight. -/
theorem totals_count_and_weight :
    (∀ (db : DB) (fl : Filters),
      (dashboardTotals db fl).count = (dashboardCrates db fl).length ∧
      (dashboardTotals db fl).total_weight =
        ((dashboardCrates db fl).map
          (fun c => match c.weight with
                    | none => (0 : ℚ)
                    | some w => w)).sum) ∧
    (dashboardTotals dbW { commodity := some "app" }).count = 2 ∧
    (dashboardTotals dbW { commodity := some "app" }).total_weight = 2 := by
  refine ⟨fun db fl => ⟨rfl, ?_⟩, rfl, ?_⟩
  · have hfun : (fun c : Crate => c.weight.getD 0) =
        (fun c : Crate => match c.weight with
                          | none => (0 : ℚ)
                          | some w => w) := by
      funext c
      cases c.weight <;> rfl
    simp only [dashboardTotals, hfun]
  · have hl : dashboardCrates dbW { commodity := some "app" } =
        [crW2, crW1] := rfl
    simp [dashboardTotals, hl, crW1, crW2, crBase]

/-- C10: supplying any dashboard filter as the empty string is identical
to omitting it — same record list and same totals. -/
theorem empty_filter_equals_absent (db : DB) (fl : Filters) :
    (dashboardCrates db { fl with run := some "" } =
        dashboardCrates db { fl with run := none } ∧
      dashboardTotals db { fl with run := some "" } =
        dashboardTotals db { fl with run := none }) ∧
    (dashboardCrates db { fl with puc := some "" } =
        dashboardCrates db { fl with puc := none } ∧
      dashboardTotals db { fl with puc := some "" } =
        dashboardTotals db { fl with puc := none }) ∧
    (dashboardCrates db { fl with commodity := some "" } =
        dashboardCrates db { fl with commodity := none } ∧
      dashboardTotals db { fl with commodity := some "" } =
        dashboardTotals db { fl with commodity := none }) ∧
    (dashboardCrates db { fl with farm := some "" } =
        dashboardCrates db { fl with farm := none } ∧
      dashboardTotals db { fl with farm := some "" } =
        dashboardTotals db { fl with farm := none }) :=
  ⟨⟨rfl, rfl⟩, ⟨rfl, rfl⟩, ⟨rfl, rfl⟩, ⟨rfl, rfl⟩⟩

/-- C1, counterexample to the claim as stated: a form POST whose required
`puc` is supplied as the empty string does persist a record, and that
persisted record carries an empty `puc`. -/
theorem form_insert_empty_required_persists :
    addCrate db0 t0 formEmptyPuc =
      .ok ({ crates := [crEmptyPuc], nextId := 2 }, crEmptyPuc) ∧
    crEmptyPuc.puc = "" := ⟨rfl, rfl⟩

/-- C1 (amended): records persisted through the JSON API always carry
non-empty `puc`, `farm_name` and `commodity`, and an API insert with any of
them missing or empty persists nothing; a form insert with any of them
missing persists nothing — but a form insert that supplies a required
field as the empty string persists a record with that field empty. -/
theorem required_fields_amended :
    (∀ (db : DB) (now : DateTime) (p : ApiPayload) (db2 : DB) (c : Crate),
      apiCreate db now p = .ok (db2, c) →
        db2.crates = db.crates ++ [c] ∧
        c.puc ≠ "" ∧ c.farm_name ≠ "" ∧ c.commodity ≠ "") ∧
    (∀ (db : DB) (now : DateTime) (p : ApiPayload),
      orNone p.puc = none ∨ orNone p.farm_name = none ∨
          orNone p.commodity = none →
        apiCreateState db now p = db) ∧
    (∀ (db : DB) (now : DateTime) (f : FormData),
      f.puc = none ∨ f.farm_name = none ∨ f.commodity = none →
        addCrateState db now f = db) := by
  refine ⟨?_, ?_, ?_⟩
  · intro db now p db2 c h
    obtain ⟨h1, -, -, hpu, hfn, hcm, -⟩ := apiCreate_ok h
    subst h1
    exact ⟨rfl, (orNone_eq_some hpu).2, (orNone_eq_some hfn).2,
      (orNone_eq_some hcm).2⟩
  · intro db now p h
    apply apiCreateState_invalid
    unfold apiInvalid
    rcases h with h | h | h <;> simp [h]
  · intro db now f h
    apply addCrateState_invalid
    unfold formInvalid
    rcases h with h | h | h <;> simp [h]

theorem required_fields_amended_witness :
    (({ crates := [crGood], nextId := 2 } : DB).crates =
        db0.crates ++ [crGood] ∧
      crGood.puc ≠ "" ∧ crGood.farm_name ≠ "" ∧ crGood.commodity ≠ "") ∧
    apiCreateState db0 t0 payloadEmptyPuc = db0 ∧
    addCrateState db0 t0 formNoPuc = db0 :=
  ⟨required_fields_amended.1 db0 t0 payloadGood _ crGood rfl,
   required_fields_amended.2.1 db0 t0 payloadEmptyPuc (Or.inl (by decide)),
   required_fields_amended.2.2 db0 t0 formNoPuc (Or.inl rfl)⟩

/-- C2: each insert path succeeds exactly on the valid inputs; on every
invalid input — missing required field (for the API, missing or empty), a
truthy weight `float()` rejects, or a truthy date `strptime()` rejects —
the store is left unchanged and the raised error names the actual failure
in the input (all-or-nothing with a specific reported error). -/
theorem insert_validation_all_or_nothing :
    (∀ (db : DB) (now : DateTime) (f : FormData),
      (addCrate db now f).isOk = !(formInvalid f) ∧
      (formInvalid f = true → addCrateState db now f = db)) ∧
    (∀ (db : DB) (now : DateTime) (f : FormData) (e : InsertError),
      addCrate db now f = .error e → errCauseForm e f) ∧
    (∀ (db : DB) (now : DateTime) (p : ApiPayload),
      (apiCreate db now p).isOk = !(apiInvalid p) ∧
      (apiInvalid p = true → apiCreateState db now p = db)) ∧
    (∀ (db : DB) (now : DateTime) (p : ApiPayload) (e : InsertError),
      apiCreate db now p = .error e → errCauseApi e p) :=
  ⟨fun db now f =>
    ⟨addCrate_isOk db now f, fun h => addCrateState_invalid h⟩,
   fun _ _ _ _ h => addCrate_error_cause h,
   fun db now p =>
    ⟨apiCreate_isOk db now p, fun h => apiCreateState_invalid h⟩,
   fun _ _ _ _ h => apiCreate_error_cause h⟩

theorem insert_validation_witness :
    addCrateState db0 t0 formBadWeight = db0 ∧
    errCauseForm (.badWeight "abc") formBadWeight ∧
    apiCreateState db0 t0 payloadBadDate = db0 ∧
    errCauseApi (.badDate "2024-13-01") payloadBadDate :=
  ⟨(insert_validation_all_or_nothing.1 db0 t0 formBadWeight).2 (by decide),
   insert_validation_all_or_nothing.2.1 db0 t0 formBadWeight
     (.badWeight "abc") rfl,
   (insert_validation_all_or_nothing.2.2.1 db0 t0 payloadBadDate).2
     (by decide),
   insert_validation_all_or_nothing.2.2.2 db0 t0 payloadBadDate
     (.badDate "2024-13-01") rfl⟩

/-- C7, counterexample to the claim as stated: a JSON insert supplying the
optional `variety` as the empty string stores the empty string rather than
normalising it to absent. -/
theorem api_empty_optional_stored :
    apiCreate db0 t0 payloadEmptyVariety =
      .ok ({ crates := [crEmptyVariety], nextId := 2 }, crEmptyVariety) ∧
    crEmptyVariety.variety = some "" := ⟨rfl, rfl⟩

/-- C7 (amended): on both insert paths an omitted or empty `date_received`
defaults to the UTC date of the request clock and the record carries the freshly
generated id; on the form path every optional field supplied as the empty
string is normalised to absent, while on the JSON API path this holds only
for `weight` and `date_received` — the optional string fields are stored
exactly as supplied, empty strings included; a JSON create carrying only
`puc`, `farm_name`, `commodity` persists a record dated with the current
UTC date under the generated id. -/
theorem insert_defaults_amended :
    (∀ (db : DB) (now : DateTime) (f : FormData) (db2 : DB) (c : Crate),
      addCrate db now f = .ok (db2, c) →
        c.id = db.nextId ∧
        c.run_number ≠ some "" ∧ c.variety ≠ some "" ∧
        c.grade_class ≠ some "" ∧ c.size ≠ some "" ∧
        c.inspector_notes ≠ some "" ∧
        ((f.date_received = none ∨ f.date_received = some "") →
          c.date_received = now.date) ∧
        ((f.weight = none ∨ f.weight = some "") → c.weight = none)) ∧
    (∀ (db : DB) (now : DateTime) (p : ApiPayload) (db2 : DB) (c : Crate),
      apiCreate db now p = .ok (db2, c) →
        c.id = db.nextId ∧
        ((p.date_received = none ∨ p.date_received = some "") →
          c.date_received = now.date) ∧
        ((p.weight = none ∨ p.weight = some "") → c.weight = none) ∧
        c.run_number = p.run_number ∧ c.variety = p.variety ∧
        c.grade_class = p.grade_class ∧ c.size = p.size ∧
        c.inspector_notes = p.inspector_notes) ∧
    (∀ (db : DB) (now : DateTime), ∃ c : Crate,
      apiCreate db now
          { puc := some "A", farm_name := some "B",
            commodity := some "C" } =
        .ok ({ crates := db.crates ++ [c], nextId := db.nextId + 1 }, c) ∧
      c.date_received = now.date ∧ c.id = db.nextId) := by
  refine ⟨?_, ?_, ?_⟩
  · intro db now f db2 c h
    obtain ⟨-, hid, -, -, -, -, hrn, hv, hgc, hsz, hin, hw, hd⟩ :=
      addCrate_ok h
    refine ⟨hid, ?_, ?_, ?_, ?_, ?_, ?_, ?_⟩
    · rw [hrn]; exact orNone_ne_empty _
    · rw [hv]; exact orNone_ne_empty _
    · rw [hgc]; exact orNone_ne_empty _
    · rw [hsz]; exact orNone_ne_empty _
    · rw [hin]; exact orNone_ne_empty _
    · intro hdr
      refine evalDate_none ?_ hd
      rcases hdr with h2 | h2 <;> rw [h2] <;> simp [orNone]
    · intro hwr
      refine evalWeight_none ?_ hw
      rcases hwr with h2 | h2 <;> rw [h2] <;> simp [orNone]
  · intro db now p db2 c h
    obtain ⟨-, hid, -, -, -, -, hrn, hv, hgc, hsz, hin, hw, hd⟩ :=
      apiCreate_ok h
    refine ⟨hid, ?_, ?_, hrn, hv, hgc, hsz, hin⟩
    · intro hdr
      refine evalDate_none ?_ hd
      rcases hdr with h2 | h2 <;> rw [h2] <;> simp [orNone]
    · intro hwr
      refine evalWeight_none ?_ hw
      rcases hwr with h2 | h2 <;> rw [h2] <;> simp [orNone]
  · intro db now
    exact ⟨_, rfl, rfl, rfl⟩

theorem insert_defaults_witness :
    crGood.id = db0.nextId ∧
    crGood.run_number ≠ some "" ∧ crGood.variety ≠ some "" ∧
    crGood.grade_class ≠ some "" ∧ crGood.size ≠ some "" ∧
    crGood.inspector_notes ≠ some "" ∧
    ((formAllEmpty.date_received = none ∨
        formAllEmpty.date_received = some "") →
      crGood.date_received = t0.date) ∧
    ((formAllEmpty.weight = none ∨ formAllEmpty.weight = some "") →
      crGood.weight = none) :=
  insert_defaults_amended.1 db0 t0 formAllEmpty _ crGood rfl

/-- C9: inserting a valid record (either path) and fetching the id the
insert assigned returns that very record in all fields; fetching an id no
stored record carries signals the not-found condition. -/
theorem insert_fetch_roundtrip :
    (∀ (db : DB) (now : DateTime) (f : FormData) (db2 : DB) (c : Crate),
      db.WF → addCrate db now f = .ok (db2, c) →
        getCrate db2 c.id = some c) ∧
    (∀ (db : DB) (now : DateTime) (p : ApiPayload) (db2 : DB) (c : Crate),
      db.WF → apiCreate db now p = .ok (db2, c) →
        getCrate db2 c.id = some c) ∧
    (∀ (db : DB) (i : Nat), (∀ c ∈ db.crates, c.id ≠ i) →
      getCrate db i = none) := by
  refine ⟨?_, ?_, ?_⟩
  · intro db now f db2 c hwf h
    obtain ⟨h1, hid, -⟩ := addCrate_ok h
    subst h1
    exact getCrate_append hwf c hid
  · intro db now p db2 c hwf h
    obtain ⟨h1, hid, -⟩ := apiCreate_ok h
    subst h1
    exact getCrate_append hwf c hid
  · exact fun db i h => getCrate_none h

theorem insert_fetch_roundtrip_witness :
    getCrate { crates := [crGood], nextId := 2 } crGood.id = some crGood ∧
    getCrate db0 5 = none :=
  ⟨insert_fetch_roundtrip.1 db0 t0 formABC
      { crates := [crGood], nextId := 2 } crGood (by decide) rfl,
   insert_fetch_roundtrip.2.2 db0 5 (by decide)⟩

/-- C6: the CSV export is one header row in the fixed column order plus
one 11-cell row per stored record (all records, filters ignored), data
rows ordered by `date_received` descending only; dates render as ISO
`YYYY-MM-DD`, absent optionals as empty cells, and a note `line1\nline2`
renders with the two-character backslash-n in its cell. -/
theorem csv_export_shape :
    (∀ db : DB, ∃ l : List Crate,
      exportRows db = csvHeader :: l.map csvRow ∧
      List.Perm l db.crates ∧ List.Sorted exportLe l ∧
      (exportRows db).length = db.crates.length + 1 ∧
      ∀ row ∈ exportRows db, row.length = 11) ∧
    csvHeader =
      ["id", "run_number", "puc", "farm_name", "commodity", "variety",
       "grade_class", "size", "weight", "date_received",
       "inspector_notes"] ∧
    csvRow crNotes =
      ["4", "", "P1", "Farm", "Apple", "", "", "", "", "2024-01-01",
       "line1\\nline2"] := by
  refine ⟨?_, rfl, by decide⟩
  intro db
  refine ⟨List.insertionSort exportLe db.crates, rfl,
    List.perm_insertionSort exportLe db.crates,
    List.sorted_insertionSort exportLe db.crates, ?_, ?_⟩
  · simp [exportRows,
      (List.perm_insertionSort exportLe db.crates).length_eq]
  · intro row hrow
    simp only [exportRows, List.mem_cons] at hrow
    rcases hrow with rfl | hrow
    · rfl
    · obtain ⟨c, -, rfl⟩ := List.mem_map.mp hrow
      rfl

/-- C8: GET /api/crates returns every stored record unfiltered, ordered by
id descending, each serialised by `to_dict` with all twelve fields of the
model, `date_received` and `created_at` as ISO-8601 strings. -/
theorem api_list_serialisation :
    (∀ db : DB, ∃ l : List Crate,
      apiList db = l.map toDict ∧ List.Perm l db.crates ∧
      List.Sorted idLe l) ∧
    (∀ c : Crate,
      (toDict c).map Prod.fst =
        ["id", "run_number", "puc", "farm_name", "commodity", "variety",
         "grade_class", "size", "weight", "date_received",
         "inspector_notes", "created_at"] ∧
      (toDict c).lookup "date_received" =
        some (JVal.str (isoDate c.date_received)) ∧
      (toDict c).lookup "created_at" =
        some (JVal.str (isoDateTime c.created_at))) := by
  constructor
  · intro db
    exact ⟨List.insertionSort idLe db.crates, rfl,
      List.perm_insertionSort idLe db.crates,
      List.sorted_insertionSort idLe db.crates⟩
  · intro c
    exact ⟨rfl, rfl, rfl⟩

theorem csv_export_shape_witness : (csvRow crNotes).length = 11 := by
  obtain ⟨l, -, -, -, -, hall⟩ := csv_export_shape.1 dbNotes
  exact hall (csvRow crNotes) (by decide)
